import Mathlib

/-
Verification of the `search-libraries` crate.

The crate consists of a generic HTTP query-parameter builder
(`ApiClientBuilder` in `src/lib.rs`, and a merged `ApiClient` in
`src/main.rs`), one search adapter per package registry
(`search_crates`, `search_npm`, `search_jsdelivr`, `search_docker`,
plus near-duplicates in `src/crates.rs` and `src/npm.rs`),
a JSON file writer (`write_json_to_file` in `src/to_json.rs` and
`src/main.rs`), and the CLI dispatch in `main`.

Modelling choices:
 * `HashMap<String, String>` is modelled as an association list
   (`Params`) whose insert replaces the value of an existing key in
   place and otherwise appends; iteration order is irrelevant to all
   statements except where two literally identical insertion sequences
   are compared.
 * The HTTP transport is out of scope (as in the crate, which delegates
   to `reqwest`): a call is modelled by the `HttpRequest` value it
   issues and by a function from an abstract `HttpResponse` (status and
   body text) to the adapter's result.  `reqwest::Response::json()`
   deserializes the body text without inspecting the HTTP status, which
   the model mirrors.
 * `serde_json::Value` is modelled by `Json`; numbers are modelled as
   integers (IEEE-754 doubles are outside the embedding).  The pretty
   printer follows `serde_json::to_string_pretty` (two-space indent,
   standard string escapes) and the parser follows
   `serde_json::from_str`.
-/

/-- Query-parameter mapping: model of `HashMap<String, String>`. -/
abbrev Params := List (String × String)

/-- Model of `HashMap::insert`: replaces the value when the key is already
present, otherwise adds a new entry. -/
def insertParam (ps : Params) (k v : String) : Params :=
  match ps with
  | [] => [(k, v)]
  | (a, b) :: rest => if a = k then (k, v) :: rest else (a, b) :: insertParam rest k v

/-- Model of `HashMap::get`: the value stored under a key. -/
def getParam (ps : Params) (k : String) : Option String :=
  match ps with
  | [] => none
  | (a, b) :: rest => if a = k then some b else getParam rest k

/-- The keys of a parameter mapping. -/
def paramKeys (ps : Params) : List String := ps.map Prod.fst


/-- Model of `serde_json::Value`.  Numbers are modelled as integers;
object entries are kept in a list (the map's iteration order). -/
inductive Json where
  | null
  | bool (b : Bool)
  | num (n : Int)
  | str (s : String)
  | arr (items : List Json)
  | obj (entries : List (String × Json))

/-- Two-space indentation used by `serde_json`'s pretty formatter. -/
def indentChars (level : Nat) : List Char := List.replicate (2 * level) ' '

/-- A newline followed by the indentation of the given nesting level. -/
def nlIndent (level : Nat) : List Char := '\n' :: indentChars level

/-- Decimal digits of a natural number, as printed by `itoa`. -/
def printNat (n : Nat) : List Char :=
  if h : n < 10 then [Nat.digitChar n]
  else printNat (n / 10) ++ [Nat.digitChar (n % 10)]
  termination_by n
  decreasing_by exact Nat.div_lt_self (by omega) (by omega)

/-- Decimal representation of an integer, as printed by `itoa`. -/
def printInt (i : Int) : List Char :=
  if i < 0 then '-' :: printNat i.natAbs else printNat i.natAbs

/-- String escaping as performed by `serde_json`'s serializer: quote and
backslash are escaped, the five short control escapes are used where
available, any other control character becomes a `\u00XX` escape, and every
other character is emitted verbatim. -/
def escapeChar (c : Char) : List Char :=
  if c = '"' then ['\\', '"']
  else if c = '\\' then ['\\', '\\']
  else if c = '\x08' then ['\\', 'b']
  else if c = '\t' then ['\\', 't']
  else if c = '\n' then ['\\', 'n']
  else if c = '\x0C' then ['\\', 'f']
  else if c = '\r' then ['\\', 'r']
  else if c.toNat < 32 then
    ['\\', 'u', '0', '0', Nat.digitChar (c.toNat / 16), Nat.digitChar (c.toNat % 16)]
  else [c]

/-- Escaping of a whole string body. -/
def escapeList : List Char → List Char
  | [] => []
  | c :: cs => escapeChar c ++ escapeList cs

mutual

/-- The text produced by `serde_json::to_string_pretty` for a value at the
given nesting level. -/
def printValue : Nat → Json → List Char
  | _, Json.null => ['n', 'u', 'l', 'l']
  | _, Json.bool true => ['t', 'r', 'u', 'e']
  | _, Json.bool false => ['f', 'a', 'l', 's', 'e']
  | _, Json.num i => printInt i
  | _, Json.str s => '"' :: (escapeList s.data ++ ['"'])
  | _, Json.arr [] => ['[', ']']
  | level, Json.arr (x :: xs) =>
    '[' :: (nlIndent (level + 1) ++ printItemsA (level + 1) (x :: xs)
      ++ nlIndent level ++ [']'])
  | _, Json.obj [] => ['\x7b', '\x7d']
  | level, Json.obj (kv :: kvs) =>
    '\x7b' :: (nlIndent (level + 1) ++ printItemsO (level + 1) (kv :: kvs)
      ++ nlIndent level ++ ['\x7d'])

/-- Comma-and-newline separated array items. -/
def printItemsA : Nat → List Json → List Char
  | _, [] => []
  | level, [x] => printValue level x
  | level, x :: xs =>
    printValue level x ++ ',' :: nlIndent level ++ printItemsA level xs

/-- Comma-and-newline separated object entries, each `"key": value`. -/
def printItemsO : Nat → List (String × Json) → List Char
  | _, [] => []
  | level, [(k, v)] =>
    '"' :: (escapeList k.data ++ '"' :: ':' :: ' ' :: printValue level v)
  | level, (k, v) :: kvs =>
    '"' :: (escapeList k.data ++ '"' :: ':' :: ' ' :: printValue level v)
      ++ ',' :: nlIndent level ++ printItemsO level kvs

end

/-- Model of `serde_json::to_string_pretty`. -/
def to_string_pretty (v : Json) : String := String.mk (printValue 0 v)

/-- JSON insignificant whitespace. -/
def isWs (c : Char) : Bool := c = ' ' || c = '\n' || c = '\t' || c = '\r'

/-- Skip insignificant whitespace. -/
def skipWs : List Char → List Char
  | [] => []
  | c :: cs => if isWs c then skipWs cs else c :: cs

/-- Accumulate a run of decimal digits. -/
def parseDigits : Nat → List Char → Nat × List Char
  | acc, [] => (acc, [])
  | acc, c :: cs =>
    if c.isDigit then parseDigits (acc * 10 + (c.toNat - 48)) cs else (acc, c :: cs)

/-- Value of one hexadecimal digit. -/
def hexVal (c : Char) : Option Nat :=
  if c.isDigit then some (c.toNat - 48)
  else if 'a' ≤ c ∧ c ≤ 'f' then some (c.toNat - 87)
  else if 'A' ≤ c ∧ c ≤ 'F' then some (c.toNat - 55)
  else none

/-- The character denoted by a single-character escape sequence. -/
def unescape (e : Char) : Option Char :=
  if e = '"' then some '"'
  else if e = '\\' then some '\\'
  else if e = '/' then some '/'
  else if e = 'b' then some '\x08'
  else if e = 'f' then some '\x0C'
  else if e = 'n' then some '\n'
  else if e = 'r' then some '\r'
  else if e = 't' then some '\t'
  else none

/-- Parse the remainder of a JSON string literal (after the opening quote),
returning its unescaped characters and the input following the closing
quote.  Unescaped control characters and invalid escapes are rejected, as
by `serde_json`. -/
def parseStringRest (cs : List Char) : Option (List Char × List Char) :=
  match cs with
  | [] => none
  | c :: rest =>
    if c = '"' then some ([], rest)
    else if c = '\\' then
      match rest with
      | [] => none
      | 'u' :: h1 :: h2 :: h3 :: h4 :: rest2 =>
        match hexVal h1, hexVal h2, hexVal h3, hexVal h4 with
        | some a, some b, some c2, some d =>
          let n := ((a * 16 + b) * 16 + c2) * 16 + d
          if h : n.isValidChar then
            match parseStringRest rest2 with
            | some (s, r) => some (Char.ofNat n :: s, r)
            | none => none
          else none
        | _, _, _, _ => none
      | e :: rest2 =>
        match unescape e with
        | some u =>
          match parseStringRest rest2 with
          | some (s, r) => some (u :: s, r)
          | none => none
        | none => none
    else if c.toNat < 32 then none
    else
      match parseStringRest rest with
      | some (s, r) => some (c :: s, r)
      | none => none
  termination_by cs.length
  decreasing_by all_goals simp [List.length] <;> omega

mutual

/-- Recursive-descent JSON value parser, as performed by
`serde_json::from_str`; `fuel` bounds the recursion and is in the end
instantiated with more than the number of syntactic nodes of the input. -/
def parseValue : Nat → List Char → Option (Json × List Char)
  | 0, _ => none
  | fuel + 1, cs =>
    match skipWs cs with
    | [] => none
    | c :: cs1 =>
      if c = 'n' then
        match cs1 with
        | 'u' :: 'l' :: 'l' :: rest => some (Json.null, rest)
        | _ => none
      else if c = 't' then
        match cs1 with
        | 'r' :: 'u' :: 'e' :: rest => some (Json.bool true, rest)
        | _ => none
      else if c = 'f' then
        match cs1 with
        | 'a' :: 'l' :: 's' :: 'e' :: rest => some (Json.bool false, rest)
        | _ => none
      else if c = '"' then
        match parseStringRest cs1 with
        | some (s, rest) => some (Json.str (String.mk s), rest)
        | none => none
      else if c = '[' then
        match skipWs cs1 with
        | [] => none
        | c2 :: cs2 =>
          if c2 = ']' then some (Json.arr [], cs2)
          else
            match parseArrItems fuel (c2 :: cs2) with
            | some (xs, rest) => some (Json.arr xs, rest)
            | none => none
      else if c = '\x7b' then
        match skipWs cs1 with
        | [] => none
        | c2 :: cs2 =>
          if c2 = '\x7d' then some (Json.obj [], cs2)
          else
            match parseObjItems fuel (c2 :: cs2) with
            | some (kvs, rest) => some (Json.obj kvs, rest)
            | none => none
      else if c = '-' then
        match cs1 with
        | d :: _ =>
          if d.isDigit then
            let p := parseDigits 0 cs1
            some (Json.num (-(p.1 : Int)), p.2)
          else none
        | [] => none
      else if c.isDigit then
        let p := parseDigits 0 (c :: cs1)
        some (Json.num (p.1 : Int), p.2)
      else none

/-- Parse one or more comma-separated array items up to the closing
bracket. -/
def parseArrItems : Nat → List Char → Option (List Json × List Char)
  | 0, _ => none
  | fuel + 1, cs =>
    match parseValue fuel cs with
    | none => none
    | some (v, r) =>
      match skipWs r with
      | ',' :: r2 =>
        match parseArrItems fuel r2 with
        | some (vs, r3) => some (v :: vs, r3)
        | none => none
      | ']' :: r2 => some ([v], r2)
      | _ => none

/-- Parse one or more comma-separated `"key": value` entries up to the
closing brace. -/
def parseObjItems : Nat → List Char → Option (List (String × Json) × List Char)
  | 0, _ => none
  | fuel + 1, cs =>
    match skipWs cs with
    | '"' :: cs1 =>
      match parseStringRest cs1 with
      | none => none
      | some (k, cs2) =>
        match skipWs cs2 with
        | ':' :: cs3 =>
          match parseValue fuel cs3 with
          | none => none
          | some (v, cs4) =>
            match skipWs cs4 with
            | ',' :: cs5 =>
              match parseObjItems fuel cs5 with
              | some (kvs, cs6) => some ((String.mk k, v) :: kvs, cs6)
              | none => none
            | '\x7d' :: cs5 => some ([(String.mk k, v)], cs5)
            | _ => none
        | _ => none
    | _ => none

end

/-- Model of `serde_json::from_str`: parse a complete JSON document,
allowing trailing whitespace only. -/
def from_str (s : String) : Option Json :=
  match parseValue (s.length + 1) s.data with
  | some (v, rest) => if skipWs rest = [] then some v else none
  | none => none

/-- Whether the input does not begin with a decimal digit (a run of
digits consumed by the number parser can only stop at such a point). -/
def noDigitStart : List Char → Bool
  | [] => true
  | c :: _ => !c.isDigit

/-- Number of decimal digits printed for a natural number. -/
def numDigits (n : Nat) : Nat :=
  if n < 10 then 1 else numDigits (n / 10) + 1
  termination_by n
  decreasing_by exact Nat.div_lt_self (by omega) (by omega)

mutual

/-- Fuel consumed by the parser on a value: one unit per value node and
per container item. -/
def nodesV : Json → Nat
  | Json.arr xs => 1 + nodesL xs
  | Json.obj kvs => 1 + nodesO kvs
  | _ => 1

/-- Fuel consumed by the parser on a list of array items. -/
def nodesL : List Json → Nat
  | [] => 0
  | x :: xs => 1 + nodesV x + nodesL xs

/-- Fuel consumed by the parser on a list of object entries. -/
def nodesO : List (String × Json) → Nat
  | [] => 0
  | (_, v) :: kvs => 1 + nodesV v + nodesO kvs

end

/-- HTTP method of an issued request. -/
inductive Method where
  | GET
  | POST
deriving DecidableEq

/-- The single outbound HTTP call an adapter issues: method, full URL
(base URL plus endpoint), query parameters and request headers. -/
structure HttpRequest where
  method : Method
  url : String
  params : Params
  headers : List (String × String)
deriving DecidableEq

/-- An abstract HTTP response: status code and body text.  Transport
failures are outside the model (the adapters propagate them unchanged). -/
structure HttpResponse where
  status : Nat
  body : String

namespace Lib

/-- The frozen client configuration of `src/lib.rs`. -/
structure ApiClient where
  base_url : String
  params : Params
  user_agent : String

/-- The builder of `src/lib.rs`. -/
structure ApiClientBuilder where
  base_url : String
  params : Params
  user_agent : String

/-- Model of `ApiClientBuilder::new`: empty parameter mapping. -/
def ApiClientBuilder.new (base_url user_agent : String) : ApiClientBuilder :=
  { base_url := base_url, params := [], user_agent := user_agent }

/-- Model of `ApiClientBuilder::set_param`: inserts or overwrites one
query parameter. -/
def ApiClientBuilder.set_param (b : ApiClientBuilder) (key value : String) : ApiClientBuilder :=
  { b with params := insertParam b.params key value }

/-- Model of `ApiClientBuilder::build`. -/
def ApiClientBuilder.build (b : ApiClientBuilder) : ApiClient :=
  { base_url := b.base_url, params := b.params, user_agent := b.user_agent }

/-- The request issued by `ApiClient::get`: a GET to `base_url + endpoint`
with the accumulated parameters as query parameters and the user agent as
the only header. -/
def ApiClient.request (c : ApiClient) (endpoint : String) : HttpRequest :=
  { method := Method.GET
    url := c.base_url ++ endpoint
    params := c.params
    headers := [("User-Agent", c.user_agent)] }

/-- Response handling of `ApiClient::get`: `response.json()` parses the
body text as JSON without inspecting the HTTP status. -/
def ApiClient.get (_c : ApiClient) (_endpoint : String) (resp : HttpResponse) :
    Except String Json :=
  match from_str resp.body with
  | some j => Except.ok j
  | none => Except.error "error decoding response body"

end Lib

namespace Crates

/-- The client built by `search_crates` in `src/crates.rs`: `page` and
`per_page` defaults are 1 and 10; `q` is set only when a query is given. -/
def search_crates_client (query : Option String) (page : Option Int)
    (per_page : Option Int) : Lib.ApiClient :=
  let client :=
    ((Lib.ApiClientBuilder.new "https://crates.io/api/v1/"
        "my_crawler (help@my_crawler.com)").set_param
      "page" (toString (page.getD 1))).set_param
      "per_page" (toString (per_page.getD 10))
  let client :=
    match query with
    | some q => client.set_param "q" q
    | none => client
  client.build

/-- The request issued by `search_crates` in `src/crates.rs`. -/
def search_crates_request (query : Option String) (page : Option Int)
    (per_page : Option Int) : HttpRequest :=
  (search_crates_client query page per_page).request "crates"

/-- The result of `search_crates` in `src/crates.rs` on a given response. -/
def search_crates (query : Option String) (page : Option Int)
    (per_page : Option Int) (resp : HttpResponse) : Except String Json :=
  (search_crates_client query page per_page).get "crates" resp

end Crates

namespace Npm

/-- The client built by `search_npm` in `src/npm.rs`: `q` only when a query
is given, then `size` with default 25. -/
def search_npm_client (query : Option String) (size : Option Nat) : Lib.ApiClient :=
  let client := Lib.ApiClientBuilder.new "https://api.npms.io/v2/search/"
    "my_crawler (help@my_crawler.com)"
  let client :=
    match query with
    | some q => client.set_param "q" q
    | none => client
  let client := client.set_param "size" (toString (size.getD 25))
  client.build

/-- The request issued by `search_npm` in `src/npm.rs`. -/
def search_npm_request (query : Option String) (size : Option Nat) : HttpRequest :=
  (search_npm_client query size).request ""

/-- The result of `search_npm` in `src/npm.rs` on a given response. -/
def search_npm (query : Option String) (size : Option Nat)
    (resp : HttpResponse) : Except String Json :=
  (search_npm_client query size).get "" resp

end Npm

namespace Main

/-- The client of `src/main.rs` (builder and client merged into one). -/
structure ApiClient where
  base_url : String
  params : Params
  user_agent : String

/-- Model of `ApiClient::new` in `src/main.rs`. -/
def ApiClient.new (base_url user_agent : String) : ApiClient :=
  { base_url := base_url, params := [], user_agent := user_agent }

/-- Model of `ApiClient::set_param` in `src/main.rs`. -/
def ApiClient.set_param (c : ApiClient) (key value : String) : ApiClient :=
  { c with params := insertParam c.params key value }

/-- The request issued by `ApiClient::get` in `src/main.rs`. -/
def ApiClient.request (c : ApiClient) (endpoint : String) : HttpRequest :=
  { method := Method.GET
    url := c.base_url ++ endpoint
    params := c.params
    headers := [("User-Agent", c.user_agent)] }

/-- Response handling of `ApiClient::get` in `src/main.rs`:
`response.json()` parses the body text as JSON without inspecting the
HTTP status. -/
def ApiClient.get (_c : ApiClient) (_endpoint : String) (resp : HttpResponse) :
    Except String Json :=
  match from_str resp.body with
  | some j => Except.ok j
  | none => Except.error "error decoding response body"

/-- The client built by `search_crates` in `src/main.rs`: defaults
`page=1`, `per_page=10`; `q` is always set, to the empty string when the
query is absent. -/
def search_crates_client (query : Option String) (page : Option Int)
    (per_page : Option Int) : ApiClient :=
  (((ApiClient.new "https://crates.io/api/v1/"
      "my_crawler (help@my_crawler.com)").set_param
    "page" (toString (page.getD 1))).set_param
    "per_page" (toString (per_page.getD 10))).set_param
    "q" (query.getD "")

/-- The request issued by `search_crates` in `src/main.rs`. -/
def search_crates_request (query : Option String) (page : Option Int)
    (per_page : Option Int) : HttpRequest :=
  (search_crates_client query page per_page).request "crates"

/-- The result of `search_crates` in `src/main.rs` on a given response. -/
def search_crates (query : Option String) (page : Option Int)
    (per_page : Option Int) (resp : HttpResponse) : Except String Json :=
  (search_crates_client query page per_page).get "crates" resp

/-- The client built by `search_npm` in `src/main.rs`: `q` always set
(empty string when absent), `size` default 25. -/
def search_npm_client (query : Option String) (size : Option Nat) : ApiClient :=
  ((ApiClient.new "https://api.npms.io/v2/search/"
      "my_crawler (help@my_crawler.com)").set_param
    "q" (query.getD "")).set_param
    "size" (toString (size.getD 25))

/-- The request issued by `search_npm` in `src/main.rs`. -/
def search_npm_request (query : Option String) (size : Option Nat) : HttpRequest :=
  (search_npm_client query size).request ""

/-- The result of `search_npm` in `src/main.rs` on a given response. -/
def search_npm (query : Option String) (size : Option Nat)
    (resp : HttpResponse) : Except String Json :=
  (search_npm_client query size).get "" resp

/-- The client built by `search_jsdelivr` in `src/main.rs`: every value,
including the three `x-algolia-*` credentials, is set with `set_param`,
so all of them travel as query parameters of a GET. -/
def search_jsdelivr_client (query : Option String) (page : Option Int) : ApiClient :=
  (((((((((ApiClient.new
      "https://ofcncog2cu-dsn.algolia.net/1/indexes/npm-search/query"
      "my_crawler (help@my_crawler.com)").set_param
    "query" (query.getD "")).set_param
    "page" (toString (page.getD 0))).set_param
    "hitsPerPage" "25").set_param
    "attributesToRetrieve" "name,version,description,homepage").set_param
    "attributesToHighlight" "").set_param
    "x-algolia-agent" "Algolia for JavaScript (3.35.1); Browser (lite)").set_param
    "x-algolia-application-id" "OFCNCOG2CU").set_param
    "x-algolia-api-key" "f54e21fa3a2a0160595bb058179bfb1e")

/-- The request issued by `search_jsdelivr` in `src/main.rs`. -/
def search_jsdelivr_request (query : Option String) (page : Option Int) : HttpRequest :=
  (search_jsdelivr_client query page).request ""

/-- The result of `search_jsdelivr` in `src/main.rs` on a given response:
the body parsed as JSON, with no status check and no `hits` extraction. -/
def search_jsdelivr (query : Option String) (page : Option Int)
    (resp : HttpResponse) : Except String Json :=
  (search_jsdelivr_client query page).get "" resp

/-- The client built by `search_docker` in `src/main.rs`: `q` always set,
`page` default 1. -/
def search_docker_client (query : Option String) (page : Option Int) : ApiClient :=
  ((ApiClient.new "https://index.docker.io/v1/search"
      "my_crawler (help@my_crawler.com)").set_param
    "q" (query.getD "")).set_param
    "page" (toString (page.getD 1))

/-- The request issued by `search_docker` in `src/main.rs`. -/
def search_docker_request (query : Option String) (page : Option Int) : HttpRequest :=
  (search_docker_client query page).request ""

/-- The result of `search_docker` in `src/main.rs` on a given response. -/
def search_docker (query : Option String) (page : Option Int)
    (resp : HttpResponse) : Except String Json :=
  (search_docker_client query page).get "" resp

/-- Model of `write_json_to_file` in `src/main.rs`: the text written to
the file (file creation and write errors are outside the model). -/
def write_json_to_file (data : Json) : String := to_string_pretty data

/-- Model of the `match source.as_str()` dispatch in `main`: the request
the selected adapter issues, or `none` for an unsupported source. -/
def dispatch (source : String) (query : String) : Option HttpRequest :=
  match source with
  | "npm" => some (search_npm_request (some query) none)
  | "docker" => some (search_docker_request (some query) none)
  | "jsdelivr" => some (search_jsdelivr_request (some query) none)
  | "crates" => some (search_crates_request (some query) none none)
  | _ => none

/-- The JSON error document synthesized by `main` on adapter failure. -/
def errorEnvelope (msg : String) : Json :=
  Json.obj [("items", Json.arr [Json.obj
    [("title", Json.str "Error"), ("subtitle", Json.str msg)]])]

/-- Observable outcome of the CLI's result handling: text printed to
standard output and to standard error, and the process exit code. -/
structure CliOutput where
  stdout : String
  stderr : String
  exitCode : Nat

/-- Model of the `match result` at the end of `main`: success pretty-prints
the data to standard output; failure pretty-prints the error envelope to
standard output; both return `Ok(())`, i.e. exit code 0. -/
def handleResult : Except String Json → CliOutput
  | Except.ok data =>
    { stdout := to_string_pretty data ++ "\n", stderr := "", exitCode := 0 }
  | Except.error e =>
    { stdout := to_string_pretty (errorEnvelope e) ++ "\n", stderr := "", exitCode := 0 }

end Main

namespace ToJson

/-- Model of `write_json_to_file` in `src/to_json.rs`: the text written to
the file. -/
def write_json_to_file (data : Json) : String := to_string_pretty data

end ToJson

/-! Lemmas about the parameter-mapping model. -/

theorem getParam_insertParam_self (ps : Params) (k v : String) :
    getParam (insertParam ps k v) k = some v := by
  induction ps with
  | nil => simp [insertParam, getParam]
  | cons p rest ih =>
    obtain ⟨a, b⟩ := p
    by_cases ha : a = k
    · simp [insertParam, getParam, ha]
    · simp [insertParam, getParam, ha, ih]

theorem getParam_insertParam_ne (ps : Params) (k v k' : String) (h : k' ≠ k) :
    getParam (insertParam ps k v) k' = getParam ps k' := by
  have hk : k ≠ k' := fun he => h he.symm
  induction ps with
  | nil => simp [insertParam, getParam, hk]
  | cons p rest ih =>
    obtain ⟨a, b⟩ := p
    by_cases ha : a = k
    · have ha' : ¬a = k' := by rw [ha]; exact hk
      simp [insertParam, getParam, ha, ha', hk]
    · by_cases ha2 : a = k'
      · subst ha2
        simp [insertParam, getParam, h]
      · simp [insertParam, getParam, ha, ha2, ih]

theorem mem_paramKeys_insertParam (ps : Params) (k v x : String) :
    x ∈ paramKeys (insertParam ps k v) ↔ x ∈ paramKeys ps ∨ x = k := by
  induction ps with
  | nil => simp [insertParam, paramKeys]
  | cons p rest ih =>
    obtain ⟨a, b⟩ := p
    by_cases ha : a = k
    · subst ha
      simp [insertParam, paramKeys]
      tauto
    · simp [insertParam, paramKeys, ha] at ih ⊢
      tauto

theorem insertParam_nodup (ps : Params) (k v : String)
    (h : (paramKeys ps).Nodup) : (paramKeys (insertParam ps k v)).Nodup := by
  induction ps with
  | nil => simp [insertParam, paramKeys]
  | cons p rest ih =>
    obtain ⟨a, b⟩ := p
    rw [paramKeys] at h
    simp only [List.map_cons, List.nodup_cons] at h
    by_cases ha : a = k
    · subst ha
      simpa [insertParam, paramKeys, List.nodup_cons] using h
    · rw [insertParam]
      simp only [if_neg ha]
      rw [paramKeys]
      simp only [List.map_cons, List.nodup_cons]
      refine ⟨?_, ih h.2⟩
      rw [show (List.map Prod.fst (insertParam rest k v) : List String)
          = paramKeys (insertParam rest k v) from rfl,
        ]
      intro hmem
      rcases (mem_paramKeys_insertParam rest k v a).mp hmem with h1 | h1
      · exact h.1 h1
      · exact ha h1

theorem count_paramKeys_insertParam (ps : Params) (k v : String)
    (h : (paramKeys ps).Nodup) :
    (paramKeys (insertParam ps k v)).count k = 1 := by
  induction ps with
  | nil => simp [insertParam, paramKeys]
  | cons p rest ih =>
    obtain ⟨a, b⟩ := p
    rw [paramKeys] at h
    simp only [List.map_cons, List.nodup_cons] at h
    by_cases ha : a = k
    · subst ha
      have hz : List.count a (List.map Prod.fst rest) = 0 :=
        List.count_eq_zero_of_not_mem h.1
      rw [insertParam]
      simp [paramKeys, List.count_cons, hz]
    · rw [insertParam]
      simp only [if_neg ha]
      rw [paramKeys]
      simp only [List.map_cons, List.count_cons]
      rw [show (List.map Prod.fst (insertParam rest k v) : List String)
          = paramKeys (insertParam rest k v) from rfl]
      simp [List.count_cons, ih h.2, Ne.symm ha, ha]

/-! Claim theorems. -/

/-- C1, counterexample: `search_jsdelivr` does not turn a non-2xx status
into an error carrying the body text — on a 404 with body `[]` it returns
the parsed body; and on a 200 whose envelope has no `hits` field it
returns the full parsed body, not an empty array. -/
theorem C1_counterexample :
    Main.search_jsdelivr (some "react") none ⟨404, "[]"⟩ = Except.ok (Json.arr []) ∧
    Main.search_jsdelivr (some "react") none ⟨404, "[]"⟩ ≠ Except.error "[]" ∧
    Main.search_jsdelivr (some "react") none ⟨200, "\x7b\x7d"⟩ = Except.ok (Json.obj []) ∧
    Json.obj [] ≠ Json.arr [] := by
  refine ⟨rfl, ?_, rfl, ?_⟩
  · intro h
    rw [show Main.search_jsdelivr (some "react") none ⟨404, "[]"⟩
        = Except.ok (Json.arr []) from rfl] at h
    exact Except.noConfusion h
  · intro h
    exact Json.noConfusion h

/-- C1, amended: `search_jsdelivr` ignores the HTTP status entirely and
returns the full parsed JSON body whenever the body parses (an error can
arise only from a body that is not valid JSON); it never checks for a
2xx status and never extracts the `hits` field. -/
theorem C1_theorem (query : Option String) (page : Option Int)
    (resp : HttpResponse) (s : Nat) (j : Json)
    (h : from_str resp.body = some j) :
    Main.search_jsdelivr query page resp = Except.ok j ∧
    Main.search_jsdelivr query page { status := s, body := resp.body } = Except.ok j := by
  constructor <;> simp [Main.search_jsdelivr, Main.ApiClient.get, h]

/-- C1, witness: the amended theorem applied to a 404 response with body
`[]`, compared with the same body under status 200. -/
theorem C1_witness :
    from_str "[]" = some (Json.arr []) ∧
    (Main.search_jsdelivr (some "react") none ⟨404, "[]"⟩ = Except.ok (Json.arr []) ∧
     Main.search_jsdelivr (some "react") none ⟨200, "[]"⟩ = Except.ok (Json.arr [])) :=
  ⟨rfl, C1_theorem (some "react") none ⟨404, "[]"⟩ 200 (Json.arr []) rfl⟩

/-- C2, counterexample: the cdn-index request is a GET, not a POST, and
the three `x-algolia-*` values travel as query parameters — the only
request header is the user agent. -/
theorem C2_counterexample :
    (Main.search_jsdelivr_request (some "react") none).method = Method.GET ∧
    Method.GET ≠ Method.POST ∧
    (Main.search_jsdelivr_request (some "react") none).headers
      = [("User-Agent", "my_crawler (help@my_crawler.com)")] ∧
    getParam (Main.search_jsdelivr_request (some "react") none).params "x-algolia-api-key"
      = some "f54e21fa3a2a0160595bb058179bfb1e" :=
  ⟨rfl, by decide, rfl, rfl⟩

/-- C2, amended: all four adapters issue exactly one GET; the cdn-index
adapter sends the three authentication-like values as query parameters of
that GET, with the user agent as its only header. -/
theorem C2_theorem :
    (∀ query page,
      (Main.search_jsdelivr_request query page).method = Method.GET ∧
      (Main.search_jsdelivr_request query page).headers
        = [("User-Agent", "my_crawler (help@my_crawler.com)")] ∧
      getParam (Main.search_jsdelivr_request query page).params "x-algolia-agent"
        = some "Algolia for JavaScript (3.35.1); Browser (lite)" ∧
      getParam (Main.search_jsdelivr_request query page).params "x-algolia-application-id"
        = some "OFCNCOG2CU" ∧
      getParam (Main.search_jsdelivr_request query page).params "x-algolia-api-key"
        = some "f54e21fa3a2a0160595bb058179bfb1e") ∧
    (∀ query page per_page,
      (Main.search_crates_request query page per_page).method = Method.GET) ∧
    (∀ query size, (Main.search_npm_request query size).method = Method.GET) ∧
    (∀ query page, (Main.search_docker_request query page).method = Method.GET) :=
  ⟨fun _ _ => ⟨rfl, rfl, rfl, rfl, rfl⟩,
   fun _ _ _ => rfl, fun _ _ => rfl, fun _ _ => rfl⟩

/-- C3, counterexample: with `per_page` omitted, both `search_crates`
implementations send `per_page=10`, not `per_page=25`. -/
theorem C3_counterexample :
    getParam (Crates.search_crates_request none none none).params "per_page" = some "10" ∧
    getParam (Main.search_crates_request none none none).params "per_page" = some "10" ∧
    (some "10" : Option String) ≠ some "25" :=
  ⟨rfl, rfl, by decide⟩

/-- C3, amended: with `page` omitted both `search_crates` implementations
send `page=1`, and with `per_page` omitted both send `per_page=10`. -/
theorem C3_theorem :
    (∀ (query : Option String) (per_page : Option Int),
      getParam (Crates.search_crates_request query none per_page).params "page" = some "1" ∧
      getParam (Main.search_crates_request query none per_page).params "page" = some "1") ∧
    (∀ (query : Option String) (page : Option Int),
      getParam (Crates.search_crates_request query page none).params "per_page" = some "10" ∧
      getParam (Main.search_crates_request query page none).params "per_page" = some "10") := by
  constructor
  · intro query per_page
    cases query <;> exact ⟨rfl, rfl⟩
  · intro query page
    cases query <;> exact ⟨rfl, rfl⟩

/-- C4, counterexample: the CLI dispatch does not recognize `composer`;
it falls through to the unsupported-source arm. -/
theorem C4_counterexample : Main.dispatch "composer" "monolog" = none := rfl

/-- C4, amended: the dispatch maps exactly the names `npm`, `docker`,
`jsdelivr` and `crates` to the matching adapters (passing the query and
default pagination); `composer` is treated as unrecognized. -/
theorem C4_theorem :
    (∀ q, Main.dispatch "npm" q = some (Main.search_npm_request (some q) none)) ∧
    (∀ q, Main.dispatch "docker" q = some (Main.search_docker_request (some q) none)) ∧
    (∀ q, Main.dispatch "jsdelivr" q = some (Main.search_jsdelivr_request (some q) none)) ∧
    (∀ q, Main.dispatch "crates" q = some (Main.search_crates_request (some q) none none)) ∧
    (∀ q, Main.dispatch "composer" q = none) :=
  ⟨fun _ => rfl, fun _ => rfl, fun _ => rfl, fun _ => rfl, fun _ => rfl⟩

/-- C5: on any adapter error the CLI prints, to standard output only, the
pretty-printed error envelope of shape
`obj [items -> arr [obj [title -> "Error", subtitle -> message]]]`, and
exits with status 0. -/
theorem C5_theorem (msg : String) :
    Main.handleResult (Except.error msg)
      = { stdout := to_string_pretty (Main.errorEnvelope msg) ++ "\n"
          stderr := ""
          exitCode := 0 } ∧
    Main.errorEnvelope msg
      = Json.obj [("items", Json.arr [Json.obj
          [("title", Json.str "Error"), ("subtitle", Json.str msg)]])] :=
  ⟨rfl, rfl⟩

/-- C6: setting the same key twice on either builder leaves exactly one
entry for that key, holding the second value, whatever else the builder
contains (its key set being duplicate-free, as every mapping reachable
through `new` and `set_param` is). -/
theorem C6_theorem (b : Lib.ApiClientBuilder) (c : Main.ApiClient) (k v1 v2 : String)
    (hb : (paramKeys b.params).Nodup) (hc : (paramKeys c.params).Nodup) :
    (paramKeys ((b.set_param k v1).set_param k v2).params).count k = 1 ∧
    getParam ((b.set_param k v1).set_param k v2).params k = some v2 ∧
    (paramKeys ((c.set_param k v1).set_param k v2).params).count k = 1 ∧
    getParam ((c.set_param k v1).set_param k v2).params k = some v2 :=
  ⟨count_paramKeys_insertParam _ k v2 (insertParam_nodup _ k v1 hb),
   getParam_insertParam_self _ k v2,
   count_paramKeys_insertParam _ k v2 (insertParam_nodup _ k v1 hc),
   getParam_insertParam_self _ k v2⟩

/-- C6, witness: both builders, fresh with one prior parameter, with
`page` set to `1` then overwritten by `2`. -/
theorem C6_witness :
    (paramKeys ((Lib.ApiClientBuilder.new "https://crates.io/api/v1/" "ua").set_param
        "q" "tokio").params).Nodup ∧
    (paramKeys ((Main.ApiClient.new "https://crates.io/api/v1/" "ua").set_param
        "q" "tokio").params).Nodup ∧
    ((paramKeys ((((Lib.ApiClientBuilder.new "https://crates.io/api/v1/" "ua").set_param
        "q" "tokio").set_param "page" "1").set_param "page" "2").params).count "page" = 1 ∧
     getParam (((((Lib.ApiClientBuilder.new "https://crates.io/api/v1/" "ua").set_param
        "q" "tokio").set_param "page" "1").set_param "page" "2").params) "page" = some "2" ∧
     (paramKeys ((((Main.ApiClient.new "https://crates.io/api/v1/" "ua").set_param
        "q" "tokio").set_param "page" "1").set_param "page" "2").params).count "page" = 1 ∧
     getParam (((((Main.ApiClient.new "https://crates.io/api/v1/" "ua").set_param
        "q" "tokio").set_param "page" "1").set_param "page" "2").params) "page" = some "2") :=
  ⟨by decide, by decide,
   C6_theorem ((Lib.ApiClientBuilder.new "https://crates.io/api/v1/" "ua").set_param "q" "tokio")
     ((Main.ApiClient.new "https://crates.io/api/v1/" "ua").set_param "q" "tokio")
     "page" "1" "2" (by decide) (by decide)⟩

/-- C7: with `size` omitted, both `search_npm` implementations send
`size=25`, the documented default. -/
theorem C7_theorem (query : Option String) :
    getParam (Npm.search_npm_request query none).params "size" = some "25" ∧
    getParam (Main.search_npm_request query none).params "size" = some "25" := by
  cases query <;> exact ⟨rfl, rfl⟩

/-- C9, counterexample: with the query absent the two `search_crates`
implementations do not build identical configurations — the library
version omits `q` while the binary version maps it to the empty string. -/
theorem C9_counterexample :
    Crates.search_crates_request none none none ≠ Main.search_crates_request none none none ∧
    getParam (Crates.search_crates_request none none none).params "q" = none ∧
    getParam (Main.search_crates_request none none none).params "q" = some "" :=
  ⟨by decide, rfl, rfl⟩

/-- C9, amended: whenever a query is present the duplicated `search_crates`
(and `search_npm`) implementations build identical requests; with the query
absent they agree on URL, method, headers and every parameter other than
`q`, where the library version omits the entry and the binary version
stores the empty string. -/
theorem C9_theorem :
    (∀ q page per_page, Crates.search_crates_request (some q) page per_page
      = Main.search_crates_request (some q) page per_page) ∧
    (∀ q size, Npm.search_npm_request (some q) size
      = Main.search_npm_request (some q) size) ∧
    (∀ page per_page,
      (Crates.search_crates_request none page per_page).url
        = (Main.search_crates_request none page per_page).url ∧
      (Crates.search_crates_request none page per_page).method
        = (Main.search_crates_request none page per_page).method ∧
      (Crates.search_crates_request none page per_page).headers
        = (Main.search_crates_request none page per_page).headers ∧
      getParam (Crates.search_crates_request none page per_page).params "q" = none ∧
      getParam (Main.search_crates_request none page per_page).params "q" = some "") ∧
    (∀ page per_page k, k ≠ "q" →
      getParam (Crates.search_crates_request none page per_page).params k
        = getParam (Main.search_crates_request none page per_page).params k) ∧
    (∀ size,
      (Npm.search_npm_request none size).url = (Main.search_npm_request none size).url ∧
      (Npm.search_npm_request none size).method = (Main.search_npm_request none size).method ∧
      (Npm.search_npm_request none size).headers = (Main.search_npm_request none size).headers ∧
      getParam (Npm.search_npm_request none size).params "q" = none ∧
      getParam (Main.search_npm_request none size).params "q" = some "") ∧
    (∀ size k, k ≠ "q" →
      getParam (Npm.search_npm_request none size).params k
        = getParam (Main.search_npm_request none size).params k) := by
  refine ⟨fun q page per_page => rfl, fun q size => rfl,
    fun page per_page => ⟨rfl, rfl, rfl, rfl, rfl⟩, ?_,
    fun size => ⟨rfl, rfl, rfl, rfl, rfl⟩, ?_⟩
  · intro page per_page k hk
    show getParam [("page", toString (page.getD 1)), ("per_page", toString (per_page.getD 10))] k
      = getParam [("page", toString (page.getD 1)), ("per_page", toString (per_page.getD 10)),
          ("q", "")] k
    by_cases h1 : "page" = k
    · simp [getParam, h1]
    · by_cases h2 : "per_page" = k
      · simp [getParam, h1, h2]
      · simp [getParam, h1, h2, Ne.symm hk]
  · intro size k hk
    show getParam [("size", toString (size.getD 25))] k
      = getParam [("q", ""), ("size", toString (size.getD 25))] k
    by_cases h1 : "size" = k
    · simp [getParam, h1, Ne.symm hk]
    · simp [getParam, h1, Ne.symm hk]

/-- C9, witness: the none-query agreement applied at the key `page` for
crates and `size` for npm. -/
theorem C9_witness :
    (("page" : String) ≠ "q" ∧
      getParam (Crates.search_crates_request none none none).params "page"
        = getParam (Main.search_crates_request none none none).params "page") ∧
    (("size" : String) ≠ "q" ∧
      getParam (Npm.search_npm_request none none).params "size"
        = getParam (Main.search_npm_request none none).params "size") :=
  ⟨⟨by decide, C9_theorem.2.2.2.1 none none "page" (by decide)⟩,
   ⟨by decide, C9_theorem.2.2.2.2.2 none "size" (by decide)⟩⟩

/-- C10: `set_param` changes neither the base URL nor the user agent nor
any parameter entry under a different key, on either builder variant. -/
theorem C10_theorem (b : Lib.ApiClientBuilder) (c : Main.ApiClient)
    (k v k' : String) (h : k' ≠ k) :
    (b.set_param k v).base_url = b.base_url ∧
    (b.set_param k v).user_agent = b.user_agent ∧
    getParam (b.set_param k v).params k' = getParam b.params k' ∧
    (c.set_param k v).base_url = c.base_url ∧
    (c.set_param k v).user_agent = c.user_agent ∧
    getParam (c.set_param k v).params k' = getParam c.params k' :=
  ⟨rfl, rfl, getParam_insertParam_ne b.params k v k' h,
   rfl, rfl, getParam_insertParam_ne c.params k v k' h⟩

/-- C10, witness: setting `q` leaves the `size` entry of both builders
untouched. -/
theorem C10_witness :
    ("size" : String) ≠ "q" ∧
    getParam ((Main.ApiClient.new "https://api.npms.io/v2/search/" "ua").set_param
        "q" "react").params "size"
      = getParam (Main.ApiClient.new "https://api.npms.io/v2/search/" "ua").params "size" :=
  ⟨by decide,
   (C10_theorem (Lib.ApiClientBuilder.new "https://api.npms.io/v2/search/" "ua")
     (Main.ApiClient.new "https://api.npms.io/v2/search/" "ua")
     "q" "react" "size" (by decide)).2.2.2.2.2⟩

/-! Round-trip of the pretty printer and the parser. -/

theorem isDigit_toNat (c : Char) (h : c.isDigit = true) :
    48 ≤ c.toNat ∧ c.toNat ≤ 57 := by
  simp [Char.isDigit, UInt32.le_def] at h
  exact ⟨h.1, h.2⟩

theorem isDigit_ne (c d : Char) (h : c.isDigit = true) (hd : d.isDigit = false) :
    c ≠ d := by
  intro he
  subst he
  rw [h] at hd
  exact Bool.noConfusion hd

theorem isDigit_not_ws (c : Char) (h : c.isDigit = true) : isWs c = false := by
  obtain ⟨hb1, hb2⟩ := isDigit_toNat c h
  apply Bool.eq_false_iff.mpr
  intro hw
  simp [isWs] at hw
  rcases hw with ((h1 | h1) | h1) | h1 <;> subst h1 <;> exact absurd hb1 (by decide)

theorem digitChar_isDigit (n : Nat) (h : n < 10) : (Nat.digitChar n).isDigit = true := by
  interval_cases n <;> decide

theorem digitChar_toNat (n : Nat) (h : n < 10) : (Nat.digitChar n).toNat = 48 + n := by
  interval_cases n <;> decide

theorem hexVal_digitChar (n : Nat) (h : n < 16) : hexVal (Nat.digitChar n) = some n := by
  interval_cases n <;> decide

theorem skipWs_cons_not (c : Char) (cs : List Char) (h : isWs c = false) :
    skipWs (c :: cs) = c :: cs := by
  simp [skipWs, h]

theorem skipWs_cons_ws (c : Char) (cs : List Char) (h : isWs c = true) :
    skipWs (c :: cs) = skipWs cs := by
  simp [skipWs, h]

theorem skipWs_replicate (n : Nat) (cs : List Char) :
    skipWs (List.replicate n ' ' ++ cs) = skipWs cs := by
  induction n with
  | zero => simp
  | succ m ih =>
    rw [List.replicate_succ, List.cons_append, skipWs_cons_ws _ _ (by decide), ih]

theorem skipWs_nlIndent (l : Nat) (cs : List Char) :
    skipWs (nlIndent l ++ cs) = skipWs cs := by
  rw [nlIndent, List.cons_append, skipWs_cons_ws _ _ (by decide), indentChars,
    skipWs_replicate]

theorem parseValue_ws (fuel : Nat) (c : Char) (cs : List Char) (h : isWs c = true) :
    parseValue fuel (c :: cs) = parseValue fuel cs := by
  cases fuel with
  | zero => rfl
  | succ f => simp only [parseValue, skipWs_cons_ws c cs h]

theorem parseValue_nlIndent (fuel l : Nat) (cs : List Char) :
    parseValue fuel (nlIndent l ++ cs) = parseValue fuel cs := by
  cases fuel with
  | zero => rfl
  | succ f => simp only [parseValue, skipWs_nlIndent]

theorem parseArrItems_nlIndent (fuel l : Nat) (cs : List Char) :
    parseArrItems fuel (nlIndent l ++ cs) = parseArrItems fuel cs := by
  cases fuel with
  | zero => rfl
  | succ f => simp only [parseArrItems, parseValue_nlIndent]

theorem parseObjItems_nlIndent (fuel l : Nat) (cs : List Char) :
    parseObjItems fuel (nlIndent l ++ cs) = parseObjItems fuel cs := by
  cases fuel with
  | zero => rfl
  | succ f => simp only [parseObjItems, skipWs_nlIndent]

theorem printNat_head (n : Nat) :
    ∃ c cs, printNat n = c :: cs ∧ c.isDigit = true := by
  rw [printNat]
  by_cases h : n < 10
  · exact ⟨Nat.digitChar n, [], by simp [h], digitChar_isDigit n h⟩
  · obtain ⟨c, cs, heq, hd⟩ := printNat_head (n / 10)
    refine ⟨c, cs ++ [Nat.digitChar (n % 10)], ?_, hd⟩
    simp [h, heq]
  termination_by n
  decreasing_by exact Nat.div_lt_self (by omega) (by omega)

theorem parseDigits_stop (acc : Nat) (cs : List Char) (h : noDigitStart cs = true) :
    parseDigits acc cs = (acc, cs) := by
  cases cs with
  | nil => rfl
  | cons c cs2 =>
    simp [noDigitStart] at h
    simp [parseDigits, h]

theorem parseDigits_printNat (n acc : Nat) (rest : List Char) :
    parseDigits acc (printNat n ++ rest)
      = parseDigits (acc * 10 ^ numDigits n + n) rest := by
  by_cases h : n < 10
  · have hd := digitChar_isDigit n h
    have ht := digitChar_toNat n h
    simp [printNat, numDigits, h, parseDigits, hd, ht]
  · have hmod : n % 10 < 10 := Nat.mod_lt _ (by omega)
    have hd := digitChar_isDigit _ hmod
    have ht := digitChar_toNat _ hmod
    rw [printNat]
    simp only [h, dite_false]
    rw [List.append_assoc, List.singleton_append,
      parseDigits_printNat (n / 10) acc (Nat.digitChar (n % 10) :: rest)]
    simp only [parseDigits, hd, ht, if_true]
    congr 1
    have hnum : numDigits n = numDigits (n / 10) + 1 := by
      rw [numDigits]
      simp [h]
    rw [hnum, pow_succ]
    have hdm : 10 * (n / 10) + n % 10 = n := Nat.div_add_mod n 10
    generalize (10 : Nat) ^ numDigits (n / 10) = t
    calc (acc * t + n / 10) * 10 + (48 + n % 10 - 48)
        = (acc * t + n / 10) * 10 + n % 10 := by congr 1; omega
      _ = acc * (t * 10) + (10 * (n / 10) + n % 10) := by ring
      _ = acc * (t * 10) + n := by rw [hdm]
  termination_by n
  decreasing_by exact Nat.div_lt_self (by omega) (by omega)

theorem parseDigits_printNat0 (n : Nat) (rest : List Char) (h : noDigitStart rest = true) :
    parseDigits 0 (printNat n ++ rest) = (n, rest) := by
  rw [parseDigits_printNat, parseDigits_stop _ _ h]
  simp

theorem parseValue_digit (f : Nat) (c : Char) (cs1 : List Char) (h : c.isDigit = true) :
    parseValue (f + 1) (c :: cs1)
      = some (Json.num ((parseDigits 0 (c :: cs1)).1 : Int), (parseDigits 0 (c :: cs1)).2) := by
  have hne : ∀ d : Char, d.isDigit = false → ¬(c = d) := fun d hd => isDigit_ne c d h hd
  simp only [parseValue, skipWs_cons_not c cs1 (isDigit_not_ws c h)]
  rw [if_neg (hne 'n' (by decide)), if_neg (hne 't' (by decide)),
    if_neg (hne 'f' (by decide)), if_neg (hne '"' (by decide)),
    if_neg (hne '[' (by decide)), if_neg (hne '\x7b' (by decide)),
    if_neg (hne '-' (by decide)), if_pos h]

theorem parseValue_minus (f : Nat) (c : Char) (cs1 : List Char) (h : c.isDigit = true) :
    parseValue (f + 1) ('-' :: c :: cs1)
      = some (Json.num (-((parseDigits 0 (c :: cs1)).1 : Int)), (parseDigits 0 (c :: cs1)).2) := by
  simp only [parseValue, skipWs_cons_not '-' _ (by decide)]
  simp [h]

theorem parseStringRest_escape (s rest : List Char) :
    parseStringRest (escapeList s ++ '"' :: rest) = some (s, rest) := by
  induction s with
  | nil =>
    rw [show escapeList ([] : List Char) ++ '"' :: rest = '"' :: rest from by
      simp [escapeList]]
    rw [parseStringRest.eq_def]
    simp
  | cons c s2 ih =>
    rw [escapeList, List.append_assoc]
    by_cases h1 : c = '"'
    · subst h1
      rw [show escapeChar '"' = ['\\', '"'] from rfl]
      simp only [List.cons_append, List.nil_append]
      rw [parseStringRest.eq_def]
      simp [unescape, ih]
    · by_cases h2 : c = '\\'
      · subst h2
        rw [show escapeChar '\\' = ['\\', '\\'] from rfl]
        simp only [List.cons_append, List.nil_append]
        rw [parseStringRest.eq_def]
        simp [unescape, ih]
      · by_cases h3 : c = '\x08'
        · subst h3
          rw [show escapeChar '\x08' = ['\\', 'b'] from rfl]
          simp only [List.cons_append, List.nil_append]
          rw [parseStringRest.eq_def]
          simp [unescape, ih]
        · by_cases h4 : c = '\t'
          · subst h4
            rw [show escapeChar '\t' = ['\\', 't'] from rfl]
            simp only [List.cons_append, List.nil_append]
            rw [parseStringRest.eq_def]
            simp [unescape, ih]
          · by_cases h5 : c = '\n'
            · subst h5
              rw [show escapeChar '\n' = ['\\', 'n'] from rfl]
              simp only [List.cons_append, List.nil_append]
              rw [parseStringRest.eq_def]
              simp [unescape, ih]
            · by_cases h6 : c = '\x0C'
              · subst h6
                rw [show escapeChar '\x0C' = ['\\', 'f'] from rfl]
                simp only [List.cons_append, List.nil_append]
                rw [parseStringRest.eq_def]
                simp [unescape, ih]
              · by_cases h7 : c = '\r'
                · subst h7
                  rw [show escapeChar '\r' = ['\\', 'r'] from rfl]
                  simp only [List.cons_append, List.nil_append]
                  rw [parseStringRest.eq_def]
                  simp [unescape, ih]
                · by_cases h8 : c.toNat < 32
                  · have ht16 : c.toNat / 16 < 16 := by omega
                    have ht16b : c.toNat % 16 < 16 := by omega
                    have hn : c.toNat / 16 * 16 + c.toNat % 16 = c.toNat := by omega
                    have hv : (c.toNat).isValidChar := Or.inl (by omega)
                    have he : escapeChar c = ['\\', 'u', '0', '0',
                        Nat.digitChar (c.toNat / 16), Nat.digitChar (c.toNat % 16)] := by
                      simp [escapeChar, h1, h2, h3, h4, h5, h6, h7, h8]
                    rw [he]
                    simp only [List.cons_append, List.nil_append]
                    rw [parseStringRest.eq_def]
                    simp [show hexVal '0' = some 0 from rfl, hexVal_digitChar _ ht16,
                      hexVal_digitChar _ ht16b, hn, hv, Char.ofNat_toNat, ih]
                  · have he : escapeChar c = [c] := by
                      simp [escapeChar, h1, h2, h3, h4, h5, h6, h7, h8]
                    rw [he]
                    simp only [List.cons_append, List.nil_append]
                    rw [parseStringRest.eq_def]
                    simp [h1, h2, h8, ih]

theorem nodesV_pos (v : Json) : 1 ≤ nodesV v := by
  cases v <;> simp [nodesV]

theorem printValue_head (level : Nat) (v : Json) :
    ∃ c cs, printValue level v = c :: cs ∧ isWs c = false ∧ c ≠ ']' ∧ c ≠ '\x7d' := by
  cases v with
  | null => exact ⟨'n', _, rfl, by decide, by decide, by decide⟩
  | bool b =>
    cases b with
    | false => exact ⟨'f', _, rfl, by decide, by decide, by decide⟩
    | true => exact ⟨'t', _, rfl, by decide, by decide, by decide⟩
  | num i =>
    by_cases hi : i < 0
    · refine ⟨'-', printNat i.natAbs, ?_, by decide, by decide, by decide⟩
      simp [printValue, printInt, hi]
    · obtain ⟨c, cs, heq, hd⟩ := printNat_head i.natAbs
      refine ⟨c, cs, ?_, isDigit_not_ws c hd, isDigit_ne c ']' hd (by decide),
        isDigit_ne c '\x7d' hd (by decide)⟩
      simp [printValue, printInt, hi, heq]
  | str s => exact ⟨'"', _, rfl, by decide, by decide, by decide⟩
  | arr items =>
    cases items with
    | nil => exact ⟨'[', _, rfl, by decide, by decide, by decide⟩
    | cons x xs => exact ⟨'[', _, rfl, by decide, by decide, by decide⟩
  | obj entries =>
    cases entries with
    | nil => exact ⟨'\x7b', _, rfl, by decide, by decide, by decide⟩
    | cons kv kvs => exact ⟨'\x7b', _, rfl, by decide, by decide, by decide⟩

mutual

theorem nodesV_le_length (level : Nat) (v : Json) :
    nodesV v ≤ (printValue level v).length := by
  cases v with
  | null => simp [nodesV, printValue]
  | bool b => cases b <;> simp [nodesV, printValue]
  | num i =>
    simp only [nodesV]
    by_cases hi : i < 0
    · simp [printValue, printInt, hi]
    · obtain ⟨c, cs, heq, _⟩ := printNat_head i.natAbs
      simp [printValue, printInt, hi, heq]
  | str s => simp [nodesV, printValue]
  | arr items =>
    cases items with
    | nil => simp [nodesV, nodesL, printValue]
    | cons x xs =>
      have h := nodesL_le_length (level + 1) (x :: xs)
      simp only [nodesV]
      simp [printValue, List.length_append, nlIndent, indentChars]
      omega
  | obj entries =>
    cases entries with
    | nil => simp [nodesV, nodesO, printValue]
    | cons kv kvs =>
      have h := nodesO_le_length (level + 1) (kv :: kvs)
      simp only [nodesV]
      simp [printValue, List.length_append, nlIndent, indentChars]
      omega

theorem nodesL_le_length (level : Nat) (xs : List Json) :
    nodesL xs ≤ (printItemsA level xs).length + 1 := by
  cases xs with
  | nil => simp [nodesL]
  | cons x xs2 =>
    cases xs2 with
    | nil =>
      have h := nodesV_le_length level x
      simp only [nodesL]
      simp [printItemsA]
      omega
    | cons y ys =>
      have h1 := nodesV_le_length level x
      have h2 := nodesL_le_length level (y :: ys)
      simp only [nodesL] at h2 ⊢
      simp [printItemsA, List.length_append, nlIndent, indentChars] at h2 ⊢
      omega

theorem nodesO_le_length (level : Nat) (kvs : List (String × Json)) :
    nodesO kvs ≤ (printItemsO level kvs).length + 1 := by
  cases kvs with
  | nil => simp [nodesO]
  | cons kv kvs2 =>
    obtain ⟨k, v⟩ := kv
    cases kvs2 with
    | nil =>
      have h := nodesV_le_length level v
      simp only [nodesO]
      simp [printItemsO, List.length_append]
      omega
    | cons kv2 rest =>
      have h1 := nodesV_le_length level v
      have h2 := nodesO_le_length level (kv2 :: rest)
      simp only [nodesO] at h2 ⊢
      simp [printItemsO, List.length_append, nlIndent, indentChars] at h2 ⊢
      omega

end

theorem noDigitStart_cons (c : Char) (cs : List Char) (h : c.isDigit = false) :
    noDigitStart (c :: cs) = true := by
  simp [noDigitStart, h]

theorem noDigitStart_nlIndent (l : Nat) (cs : List Char) :
    noDigitStart (nlIndent l ++ cs) = true := by
  rw [nlIndent, List.cons_append]
  exact noDigitStart_cons _ _ (by decide)

theorem printItemsA_head (level : Nat) (x : Json) (xs : List Json) :
    ∃ c cs, printItemsA level (x :: xs) = c :: cs ∧ isWs c = false ∧ c ≠ ']' ∧ c ≠ '\x7d' := by
  obtain ⟨c, cs, hh, hw, h1, h2⟩ := printValue_head level x
  cases xs with
  | nil => exact ⟨c, cs, by simp [printItemsA, hh], hw, h1, h2⟩
  | cons y ys =>
    exact ⟨c, cs ++ (',' :: nlIndent level ++ printItemsA level (y :: ys)),
      by simp [printItemsA, hh], hw, h1, h2⟩

theorem printItemsO_head (level : Nat) (kv : String × Json) (kvs : List (String × Json)) :
    ∃ cs, printItemsO level (kv :: kvs) = '"' :: cs := by
  obtain ⟨k, v⟩ := kv
  cases kvs with
  | nil => exact ⟨_, rfl⟩
  | cons kv2 rest => exact ⟨_, rfl⟩

theorem string_mk_data (s : String) : String.mk s.data = s := rfl

theorem parse_print_aux (fuel : Nat) :
    (∀ v level rest, nodesV v ≤ fuel → noDigitStart rest = true →
      parseValue fuel (printValue level v ++ rest) = some (v, rest)) ∧
    (∀ x xs level l2 rest, nodesL (x :: xs) ≤ fuel →
      parseArrItems fuel (printItemsA level (x :: xs) ++ (nlIndent l2 ++ ']' :: rest))
        = some (x :: xs, rest)) ∧
    (∀ kv kvs level l2 rest, nodesO (kv :: kvs) ≤ fuel →
      parseObjItems fuel (printItemsO level (kv :: kvs) ++ (nlIndent l2 ++ '\x7d' :: rest))
        = some (kv :: kvs, rest)) := by
  induction fuel with
  | zero =>
    refine ⟨?_, ?_, ?_⟩
    · intro v level rest hf _
      have := nodesV_pos v
      omega
    · intro x xs level l2 rest hf
      simp only [nodesL] at hf
      omega
    · intro kv kvs level l2 rest hf
      obtain ⟨k, v2⟩ := kv
      simp only [nodesO] at hf
      omega
  | succ f ih =>
    obtain ⟨ih1, ih2, ih3⟩ := ih
    refine ⟨?_, ?_, ?_⟩
    · intro v level rest hf hr
      cases v with
      | null =>
        simp only [printValue, List.cons_append, List.nil_append]
        simp [parseValue, skipWs_cons_not 'n' _ (by decide)]
      | bool b =>
        cases b with
        | true =>
          simp only [printValue, List.cons_append, List.nil_append]
          simp [parseValue, skipWs_cons_not 't' _ (by decide)]
        | false =>
          simp only [printValue, List.cons_append, List.nil_append]
          simp [parseValue, skipWs_cons_not 'f' _ (by decide)]
      | num i =>
        simp only [printValue]
        by_cases hi : i < 0
        · rw [show printInt i = '-' :: printNat i.natAbs from by simp [printInt, hi]]
          obtain ⟨c, cs, heq, hd⟩ := printNat_head i.natAbs
          rw [heq]
          simp only [List.cons_append]
          rw [parseValue_minus f c (cs ++ rest) hd]
          rw [show c :: (cs ++ rest) = printNat i.natAbs ++ rest from by rw [heq]; simp]
          rw [parseDigits_printNat0 _ _ hr]
          have hval : -((i.natAbs : Nat) : Int) = i := by omega
          rw [hval]
        · rw [show printInt i = printNat i.natAbs from by simp [printInt, hi]]
          obtain ⟨c, cs, heq, hd⟩ := printNat_head i.natAbs
          rw [heq]
          simp only [List.cons_append]
          rw [parseValue_digit f c (cs ++ rest) hd]
          rw [show c :: (cs ++ rest) = printNat i.natAbs ++ rest from by rw [heq]; simp]
          rw [parseDigits_printNat0 _ _ hr]
          have hval : ((i.natAbs : Nat) : Int) = i := by omega
          rw [hval]
      | str s =>
        simp only [printValue, List.cons_append, List.append_assoc, List.singleton_append]
        simp [parseValue, skipWs_cons_not '"' _ (by decide), parseStringRest_escape,
          string_mk_data]
      | arr items =>
        cases items with
        | nil =>
          simp only [printValue, List.cons_append, List.nil_append]
          simp [parseValue, skipWs_cons_not '[' _ (by decide),
            skipWs_cons_not ']' _ (by decide)]
        | cons x xs =>
          have hf2 : nodesL (x :: xs) ≤ f := by
            simp only [nodesV] at hf
            omega
          have harr := ih2 x xs (level + 1) level rest hf2
          obtain ⟨c, cs, hh, hw, hne1, hne2⟩ := printItemsA_head (level + 1) x xs
          rw [hh] at harr
          simp only [List.cons_append] at harr
          simp only [printValue, List.cons_append, List.append_assoc, List.singleton_append]
          simp [parseValue, skipWs_cons_not, skipWs_nlIndent, hh, hw, hne1, harr, isWs]
          rw [skipWs_cons_not c _ hw]
          simp [hne1, harr]
      | obj entries =>
        cases entries with
        | nil =>
          simp only [printValue, List.cons_append, List.nil_append]
          simp [parseValue, skipWs_cons_not '\x7b' _ (by decide),
            skipWs_cons_not '\x7d' _ (by decide)]
        | cons kv kvs =>
          have hf2 : nodesO (kv :: kvs) ≤ f := by
            simp only [nodesV] at hf
            omega
          have hobj := ih3 kv kvs (level + 1) level rest hf2
          obtain ⟨cs, hh⟩ := printItemsO_head (level + 1) kv kvs
          rw [hh] at hobj
          simp only [List.cons_append] at hobj
          simp only [printValue, List.cons_append, List.append_assoc, List.singleton_append]
          simp [parseValue, skipWs_cons_not, skipWs_nlIndent, hh, hobj, isWs]
    · intro x xs level l2 rest hf
      cases xs with
      | nil =>
        have hfx : nodesV x ≤ f := by
          simp only [nodesL] at hf
          omega
        have hv := ih1 x level (nlIndent l2 ++ ']' :: rest) hfx (noDigitStart_nlIndent l2 _)
        simp only [printItemsA]
        simp only [parseArrItems, hv]
        rw [skipWs_nlIndent, skipWs_cons_not ']' rest (by decide)]
        simp
      | cons y ys =>
        have hfx : nodesV x ≤ f := by
          simp only [nodesL] at hf
          omega
        have hfys : nodesL (y :: ys) ≤ f := by
          simp only [nodesL] at hf ⊢
          omega
        have hv := ih1 x level
          (',' :: (nlIndent level ++ (printItemsA level (y :: ys)
            ++ (nlIndent l2 ++ ']' :: rest))))
          hfx (noDigitStart_cons ',' _ (by decide))
        have htail := ih2 y ys level l2 rest hfys
        simp only [printItemsA, List.cons_append, List.append_assoc]
        simp only [parseArrItems, hv]
        rw [skipWs_cons_not ',' _ (by decide)]
        simp [parseArrItems_nlIndent, htail]
    · intro kv kvs level l2 rest hf
      obtain ⟨k, v⟩ := kv
      cases kvs with
      | nil =>
        have hfv : nodesV v ≤ f := by
          simp only [nodesO] at hf
          omega
        have hv := ih1 v level (nlIndent l2 ++ '\x7d' :: rest) hfv
          (noDigitStart_nlIndent l2 _)
        simp only [printItemsO, List.cons_append, List.append_assoc]
        simp [parseObjItems, skipWs_cons_not, isWs, parseStringRest_escape,
          parseValue_ws, hv, skipWs_nlIndent, string_mk_data]
      | cons kv2 rest2 =>
        have hfv : nodesV v ≤ f := by
          simp only [nodesO] at hf
          omega
        have hfr : nodesO (kv2 :: rest2) ≤ f := by
          simp only [nodesO] at hf ⊢
          omega
        have hv := ih1 v level
          (',' :: (nlIndent level ++ (printItemsO level (kv2 :: rest2)
            ++ (nlIndent l2 ++ '\x7d' :: rest))))
          hfv (noDigitStart_cons ',' _ (by decide))
        have htail := ih3 kv2 rest2 level l2 rest hfr
        simp only [printItemsO, List.cons_append, List.append_assoc]
        simp [parseObjItems, skipWs_cons_not, isWs, parseStringRest_escape,
          parseValue_ws, hv, parseObjItems_nlIndent, htail, string_mk_data]

theorem from_str_to_string_pretty (v : Json) :
    from_str (to_string_pretty v) = some v := by
  unfold from_str to_string_pretty
  rw [show (String.mk (printValue 0 v)).length = (printValue 0 v).length from rfl]
  rw [show (String.mk (printValue 0 v)).data = printValue 0 v from rfl]
  have hfuel : nodesV v ≤ (printValue 0 v).length + 1 :=
    le_trans (nodesV_le_length 0 v) (by omega)
  have h := (parse_print_aux ((printValue 0 v).length + 1)).1 v 0 [] hfuel rfl
  rw [List.append_nil] at h
  rw [h]
  simp [skipWs]

/-- C8: serializing any JSON value with the pretty printer used by
`write_json_to_file` (either copy) and re-parsing the written text yields
the original value. -/
theorem C8_theorem (v : Json) :
    from_str (ToJson.write_json_to_file v) = some v ∧
    from_str (Main.write_json_to_file v) = some v :=
  ⟨from_str_to_string_pretty v, from_str_to_string_pretty v⟩
